import Mathlib

/-!
Shallow embedding of the `blockdev` Rust crate (`src/lib.rs`): the lsblk JSON
data model (`BlockDevices` / `BlockDevice` / `DeviceType`), the custom serde
deserializers (`deserialize_size`, `deserialize_mountpoints`), the size-string
parser (`parse_size_string`), the serde-derived (de)serialization of the tree,
and the pure query methods (`is_system`, `system`, `non_system`, ...).

Modelling conventions:
* Rust strings are Lean `String`s; character-level scanning (`trim`, splitting
  a size string) is performed on `String.toList`.
* `f64` decimal literals built only from ASCII digits and `.` are modelled as
  exact rationals (`ℚ`); the Rust code parses them with `str::parse::<f64>`
  which rounds to the nearest double — that rounding is idealized away, and the
  final `as u64` cast (truncation toward zero, saturating at the `u64` range)
  is modelled exactly.
* JSON documents are modelled as a `Json` value tree (the `serde_json::Value`
  level); the concrete-syntax layer of `serde_json` is abstracted away.
* The serde-derived struct/enum deserializers are modelled field-loop by
  field-loop: keys are processed in document order, a key (or one of its
  aliases) hitting an already-filled field slot is a duplicate-field error,
  unknown keys are ignored, missing keys are an error unless the field has a
  serde `default`.
-/

namespace Blockdev

/-- Rust `DeviceType` from `src/lib.rs` (serde `rename_all = "lowercase"`, with a
`#[serde(other)]` catch-all variant `Other`). -/
inductive DeviceType where
  | Disk
  | Part
  | Loop
  | Raid1
  | Raid5
  | Raid6
  | Raid0
  | Raid10
  | Lvm
  | Crypt
  | Rom
  | Other
  deriving DecidableEq, Repr

/-- Rust `BlockDevice` from `src/lib.rs`: one node of the lsblk tree.  The field
order matches the Rust struct declaration (`name`, `maj:min`, `rm`, `size`,
`ro`, `type`, `mountpoints`, `children`).  The Rust `u64` size is modelled as
`Nat`. -/
inductive BlockDevice where
  | mk
      (name : String)
      (maj_min : String)
      (rm : Bool)
      (size : Nat)
      (ro : Bool)
      (device_type : DeviceType)
      (mountpoints : List (Option String))
      (children : Option (List BlockDevice))

/-- Projection: the `name` field. -/
def BlockDevice.name : BlockDevice → String
  | .mk n _ _ _ _ _ _ _ => n

/-- Projection: the `size` field. -/
def BlockDevice.size : BlockDevice → Nat
  | .mk _ _ _ s _ _ _ _ => s

/-- Projection: the `mountpoints` field. -/
def BlockDevice.mountpoints : BlockDevice → List (Option String)
  | .mk _ _ _ _ _ _ m _ => m

/-- Projection: the `children` field. -/
def BlockDevice.children : BlockDevice → Option (List BlockDevice)
  | .mk _ _ _ _ _ _ _ c => c

/-- The children of a device as a plain list (`[]` when the `children` field
is absent); used to phrase descendant relations. -/
def BlockDevice.childrenList (d : BlockDevice) : List BlockDevice :=
  d.children.getD []

/-- Rust `BlockDevices` from `src/lib.rs`: the top-level collection. -/
structure BlockDevices where
  blockdevices : List BlockDevice

/-- Rust `BlockDevice::active_mountpoints`: all non-null mountpoints, order
preserved (`self.mountpoints.iter().filter_map(|m| m.as_deref()).collect()`). -/
def BlockDevice.active_mountpoints (d : BlockDevice) : List String :=
  d.mountpoints.filterMap id

/-- Rust `BlockDevice::is_mounted`: `self.mountpoints.iter().any(|m| m.is_some())`. -/
def BlockDevice.is_mounted (d : BlockDevice) : Bool :=
  d.mountpoints.any (fun m => m.isSome)

/-- Rust `BlockDevice::has_children`:
`self.children.as_ref().is_some_and(|c| !c.is_empty())`. -/
def BlockDevice.has_children (d : BlockDevice) : Bool :=
  match d.children with
  | none => false
  | some c => !c.isEmpty

/-- Rust `BlockDevice::find_child`: first direct child with the given name
(`self.children.as_ref()?.iter().find(|c| c.name == name)`). -/
def BlockDevice.find_child (d : BlockDevice) (name : String) : Option BlockDevice :=
  match d.children with
  | none => none
  | some cs => cs.find? (fun c => c.name == name)

mutual
/-- Rust `BlockDevice::is_system`: true when the device's own mountpoint list
contains `Some("/")`, or some child subtree does (the Rust method checks
`self.mountpoints.iter().any(|m| m.as_deref() == Some("/"))` and then loops
over `children`, returning true on the first system child). -/
def BlockDevice.is_system : BlockDevice → Bool
  | .mk _ _ _ _ _ _ mps children =>
    mps.any (fun m => m == some "/") || is_system_children children

/-- Helper for `BlockDevice.is_system`: the loop over the optional children
list (`if let Some(children) = &self.children { for child in children ... }`). -/
def is_system_children : Option (List BlockDevice) → Bool
  | none => false
  | some cs => is_system_list cs

/-- Helper for `BlockDevice.is_system`: the loop over a children list. -/
def is_system_list : List BlockDevice → Bool
  | [] => false
  | c :: cs => c.is_system || is_system_list cs
end

/-- Rust `BlockDevices::system`: top-level devices satisfying `is_system`, by
`filter`, in original order. -/
def BlockDevices.system (bs : BlockDevices) : List BlockDevice :=
  bs.blockdevices.filter (fun d => d.is_system)

/-- Rust `BlockDevices::non_system`: top-level devices not satisfying `is_system`,
by `filter`, in original order. -/
def BlockDevices.non_system (bs : BlockDevices) : List BlockDevice :=
  bs.blockdevices.filter (fun d => !d.is_system)

/-- Rust `BlockDevices::find_by_name`: first top-level device with the given name. -/
def BlockDevices.find_by_name (bs : BlockDevices) (name : String) : Option BlockDevice :=
  bs.blockdevices.find? (fun d => d.name == name)

/-- The strict descendant / ancestor closure used to state `is_system`:
`InSubtree e d` holds when `e` is `d` itself or a member of `d`'s subtree. -/
inductive InSubtree : BlockDevice → BlockDevice → Prop where
  | refl (d : BlockDevice) : InSubtree d d
  | step {e c : BlockDevice} (d : BlockDevice) :
      c ∈ d.childrenList → InSubtree e c → InSubtree e d

/-! ## Size-string parsing (`parse_size_string`) -/

/-- The predicate the Rust splitter uses: a character belonging to the numeric
portion (`c.is_ascii_digit() || c == '.'`). -/
def isNumChar (c : Char) : Bool :=
  c.isDigit || c == '.'

/-- Rust `str::trim` on a character list (leading and trailing whitespace
removed). -/
def trimChars (cs : List Char) : List Char :=
  ((cs.dropWhile Char.isWhitespace).reverse.dropWhile Char.isWhitespace).reverse

/-- Value of a list of ASCII digits, most significant first. -/
def digitsVal (cs : List Char) : Nat :=
  cs.foldl (fun acc c => 10 * acc + (c.toNat - 48)) 0

/-- Model of Rust `str::parse::<f64>` restricted to the strings the size
parser can produce (only ASCII digits and `.`), returning the exact decimal
value as a numerator/scale pair: `(n, k)` denotes `n / 10^k`.  Accepts `"1"`,
`"1.5"`, `"1."`, `".5"`; rejects the empty string, `"."`, and strings with
more than one dot — exactly the inputs on which the Rust parse fails.  (The
rounding of the decimal to the nearest `f64` is idealized away, per the
module conventions.) -/
def parseDecimal (cs : List Char) : Option (Nat × Nat) :=
  if cs.all (fun c => c.isDigit || c == '.') then
    match cs.splitOn '.' with
    | [ds] => if ds.isEmpty then none else some (digitsVal ds, 0)
    | [as, bs] =>
        if as.isEmpty && bs.isEmpty then none
        else some (digitsVal (as ++ bs), bs.length)
    | _ => none
  else none

/-- The exact rational value denoted by a parsed decimal numerator/scale
pair. -/
def decimalValue (p : Nat × Nat) : ℚ :=
  (p.1 : ℚ) / (10 : ℚ) ^ p.2

/-- The suffix-to-multiplier table of `parse_size_string`: the suffix is
uppercased (`suffix.to_uppercase()`) and matched against the fixed set of unit
names; an unknown suffix yields `none` (the Rust `_ => return None`). -/
def unitMultiplier (suffix : List Char) : Option Nat :=
  let u := String.mk (suffix.map Char.toUpper)
  if u = "" ∨ u = "B" then some 1
  else if u = "K" ∨ u = "KB" ∨ u = "KIB" then some 1024
  else if u = "M" ∨ u = "MB" ∨ u = "MIB" then some (1024 ^ 2)
  else if u = "G" ∨ u = "GB" ∨ u = "GIB" then some (1024 ^ 3)
  else if u = "T" ∨ u = "TB" ∨ u = "TIB" then some (1024 ^ 4)
  else if u = "P" ∨ u = "PB" ∨ u = "PIB" then some (1024 ^ 5)
  else none

/-- The numeric portion of a size string: the trimmed string's longest prefix
of digits and dots (`&s[..idx]` where `idx` is the first non-numeric index). -/
def numPortion (s : String) : List Char :=
  (trimChars s.toList).takeWhile isNumChar

/-- The unit portion of a size string: the trimmed remainder after the numeric
portion, trimmed again (`s[idx..].trim()`). -/
def unitPortion (s : String) : List Char :=
  trimChars ((trimChars s.toList).dropWhile isNumChar)

/-- Rust `parse_size_string` from `src/lib.rs`: trim; fail on empty; split into
numeric portion and suffix; parse the numeric portion as a decimal number;
look up the unit multiplier; the result is the product cast `as u64` —
truncation toward zero, saturating at `2^64 - 1`.  On the exact decimal
`(num, scale)` the truncated product `⌊(num / 10^scale) · mult⌋` is the Nat
division `num * mult / 10^scale` (the numeric portion is never negative). -/
def parse_size_string (s : String) : Option Nat :=
  let t := trimChars s.toList
  if t.isEmpty then none
  else
    match parseDecimal (t.takeWhile isNumChar) with
    | none => none
    | some (num, scale) =>
      match unitMultiplier (trimChars (t.dropWhile isNumChar)) with
      | none => none
      | some mult => some (min (num * mult / 10 ^ scale) (2 ^ 64 - 1))

/-! ## JSON value model and the serde deserializers -/

/-- A `serde_json::Number`: either a non-negative integer (`PosInt`, a `u64`
in Rust, modelled as `Nat`), a negative integer (`NegInt`, an `i64`), or a
floating-point number (`Float`, modelled as an exact rational per the module
conventions). -/
inductive JsonNumber where
  | posInt (n : Nat)
  | negInt (i : Int)
  | float (q : ℚ)

/-- A `serde_json::Value` tree.  Objects keep their fields in document
order. -/
inductive Json where
  | null
  | bool (b : Bool)
  | num (n : JsonNumber)
  | str (s : String)
  | arr (xs : List Json)
  | obj (fields : List (String × Json))

/-- The numeric value of a `JsonNumber` as a rational (used only to state
properties; `posInt` and `negInt` are exact, `float` is the idealized `f64`). -/
def JsonNumber.value : JsonNumber → ℚ
  | .posInt n => n
  | .negInt i => i
  | .float q => q

/-- Model of `serde_json::Number::as_u64`: `Some` exactly for the `PosInt` variant
(negative integers and floats yield `None`, even integral floats). -/
def JsonNumber.as_u64 : JsonNumber → Option Nat
  | .posInt n => some n
  | .negInt _ => none
  | .float _ => none

/-- Model of `serde_json::Number::as_f64`: defined on every variant (integer variants
are converted to floating point; conversion modelled exactly). -/
def JsonNumber.as_f64 : JsonNumber → Option ℚ
  | .posInt n => some n
  | .negInt i => some i
  | .float q => some q

/-- The Rust `f64 as u64` cast: truncation toward zero, saturating — negative
values map to `0`, values beyond the `u64` range map to `2^64 - 1`. -/
def f64_as_u64 (q : ℚ) : Nat :=
  if q < 0 then 0 else min q.floor.toNat (2 ^ 64 - 1)

/-- Rust `deserialize_size` from `src/lib.rs`: a number is taken via `as_u64`,
falling back to `as_f64` followed by the `as u64` cast; a string goes through
`parse_size_string`; anything else is an error. -/
def deserialize_size (j : Json) : Except String Nat :=
  match j with
  | .num n =>
    match n.as_u64 with
    | some u => .ok u
    | none =>
      match n.as_f64 with
      | some f => .ok (f64_as_u64 f)
      | none => .error "invalid numeric size"
  | .str s =>
    match parse_size_string s with
    | some u => .ok u
    | none => .error ("invalid size string: " ++ s)
  | _ => .error "size must be a number or string"

/-- serde deserialization of an `Option<String>` from JSON: `null` becomes
`none`, a string becomes `some`, anything else is a type error. -/
def deserializeOptString (j : Json) : Except String (Option String) :=
  match j with
  | .null => .ok none
  | .str s => .ok (some s)
  | _ => .error "invalid type: expected a string or null"

/-- Rust `deserialize_mountpoints` from `src/lib.rs`: an array is deserialized
element-wise as `Vec<Option<String>>`; any other value is deserialized as a
single `Option<String>` and wrapped in a one-element vector. -/
def deserialize_mountpoints (j : Json) : Except String (List (Option String)) :=
  match j with
  | .arr xs => xs.mapM deserializeOptString
  | j => (deserializeOptString j).map (fun o => [o])

/-- The serde label classifier for `DeviceType` (`rename_all = "lowercase"`):
exact case-sensitive match against the eleven lowercase variant names; every
other label falls to the `#[serde(other)]` variant `Other`.  Total on all
strings. -/
def deviceTypeOfLabel (s : String) : DeviceType :=
  if s = "disk" then .Disk
  else if s = "part" then .Part
  else if s = "loop" then .Loop
  else if s = "raid1" then .Raid1
  else if s = "raid5" then .Raid5
  else if s = "raid6" then .Raid6
  else if s = "raid0" then .Raid0
  else if s = "raid10" then .Raid10
  else if s = "lvm" then .Lvm
  else if s = "crypt" then .Crypt
  else if s = "rom" then .Rom
  else .Other

/-- serde deserialization of `DeviceType` from JSON: a string label is
classified (never failing, thanks to the catch-all); a non-string value is a
type error. -/
def deserializeDeviceType (j : Json) : Except String DeviceType :=
  match j with
  | .str s => .ok (deviceTypeOfLabel s)
  | _ => .error "invalid type: expected a device type string"

/-- serde deserialization of a `String` field. -/
def deserializeString (j : Json) : Except String String :=
  match j with
  | .str s => .ok s
  | _ => .error "invalid type: expected a string"

/-- serde deserialization of a `bool` field. -/
def deserializeBool (j : Json) : Except String Bool :=
  match j with
  | .bool b => .ok b
  | _ => .error "invalid type: expected a boolean"

/-- The field slots accumulated by the serde-derived `BlockDevice`
deserializer while walking an object's keys: `none` means "not seen yet".
Both wire names `"mountpoints"` and its alias `"mountpoint"` feed the single
`mountpoints` slot. -/
structure Slots where
  name : Option String
  maj_min : Option String
  rm : Option Bool
  size : Option Nat
  ro : Option Bool
  device_type : Option DeviceType
  mountpoints : Option (List (Option String))
  children : Option (Option (List BlockDevice))

/-- All slots empty. -/
def initSlots : Slots :=
  ⟨none, none, none, none, none, none, none, none⟩

/-- Finalization of the serde field loop: required fields missing are an
error (in declaration order); `mountpoints` defaults to `[]` and `children`
to `none` (their serde `default`). -/
def finishSlots (s : Slots) : Except String BlockDevice :=
  match s.name with
  | none => .error "missing field name"
  | some name =>
  match s.maj_min with
  | none => .error "missing field maj:min"
  | some maj_min =>
  match s.rm with
  | none => .error "missing field rm"
  | some rm =>
  match s.size with
  | none => .error "missing field size"
  | some size =>
  match s.ro with
  | none => .error "missing field ro"
  | some ro =>
  match s.device_type with
  | none => .error "missing field type"
  | some device_type =>
    .ok (.mk name maj_min rm size ro device_type
      (s.mountpoints.getD []) (s.children.getD none))

/-- One step of the serde field loop for the seven non-recursive fields:
route the key to its slot (the alias `"mountpoint"` routes to the
`mountpoints` slot), erroring on an already-filled slot (duplicate field)
before deserializing the value; unknown keys (anything that is neither one of
the seven names below nor `"children"`) are ignored. -/
def processSimpleField (k : String) (v : Json) (s : Slots) : Except String Slots :=
  if k = "name" then
    match s.name with
    | some _ => .error "duplicate field name"
    | none =>
      match deserializeString v with
      | .ok x => .ok { s with name := some x }
      | .error e => .error e
  else if k = "maj:min" then
    match s.maj_min with
    | some _ => .error "duplicate field maj:min"
    | none =>
      match deserializeString v with
      | .ok x => .ok { s with maj_min := some x }
      | .error e => .error e
  else if k = "rm" then
    match s.rm with
    | some _ => .error "duplicate field rm"
    | none =>
      match deserializeBool v with
      | .ok x => .ok { s with rm := some x }
      | .error e => .error e
  else if k = "size" then
    match s.size with
    | some _ => .error "duplicate field size"
    | none =>
      match deserialize_size v with
      | .ok x => .ok { s with size := some x }
      | .error e => .error e
  else if k = "ro" then
    match s.ro with
    | some _ => .error "duplicate field ro"
    | none =>
      match deserializeBool v with
      | .ok x => .ok { s with ro := some x }
      | .error e => .error e
  else if k = "type" then
    match s.device_type with
    | some _ => .error "duplicate field type"
    | none =>
      match deserializeDeviceType v with
      | .ok x => .ok { s with device_type := some x }
      | .error e => .error e
  else if k = "mountpoints" ∨ k = "mountpoint" then
    match s.mountpoints with
    | some _ => .error "duplicate field mountpoints"
    | none =>
      match deserialize_mountpoints v with
      | .ok x => .ok { s with mountpoints := some x }
      | .error e => .error e
  else
    .ok s

mutual
/-- The serde-derived deserializer for `BlockDevice`: an object's fields are
processed in order into the slots, then finalized; a non-object is a type
error. -/
def deserializeBlockDevice : Json → Except String BlockDevice
  | .obj fields =>
    match processFields fields initSlots with
    | .ok s => finishSlots s
    | .error e => .error e
  | _ => .error "invalid type: expected an object"

/-- The serde field loop: process each key/value pair in document order.  The
recursive `"children"` key is handled here (duplicate-slot check first, then
the value); every other key is handled by `processSimpleField`.  The key
comparisons are mutually exclusive, so checking `"children"` first is
equivalent to the serde-generated match on field names. -/
def processFields : List (String × Json) → Slots → Except String Slots
  | [], s => .ok s
  | (k, v) :: rest, s =>
    if k = "children" then
      match s.children with
      | some _ => .error "duplicate field children"
      | none =>
        match deserializeChildren v with
        | .ok x => processFields rest { s with children := some x }
        | .error e => .error e
    else
      match processSimpleField k v s with
      | .ok s' => processFields rest s'
      | .error e => .error e

/-- serde deserialization of the `Option<Vec<BlockDevice>>` children field:
`null` is `none`, an array is deserialized element-wise, anything else is a
type error. -/
def deserializeChildren : Json → Except String (Option (List BlockDevice))
  | .null => .ok none
  | .arr xs =>
    match deserializeBlockDeviceList xs with
    | .ok ds => .ok (some ds)
    | .error e => .error e
  | _ => .error "invalid type: expected a sequence or null"

/-- serde deserialization of a `Vec<BlockDevice>`: element-wise, stopping at
the first error. -/
def deserializeBlockDeviceList : List Json → Except String (List BlockDevice)
  | [] => .ok []
  | x :: xs =>
    match deserializeBlockDevice x with
    | .ok d =>
      match deserializeBlockDeviceList xs with
      | .ok ds => .ok (d :: ds)
      | .error e => .error e
    | .error e => .error e
end

/-- The serde-derived deserializer for the top-level `BlockDevices` struct:
one required field `"blockdevices"` (a device array), duplicates are an
error, unknown keys are ignored. -/
def processTopFields : List (String × Json) → Option (List BlockDevice) →
    Except String (List BlockDevice)
  | [], none => .error "missing field blockdevices"
  | [], some ds => .ok ds
  | (k, v) :: rest, acc =>
    if k = "blockdevices" then
      match acc with
      | some _ => .error "duplicate field blockdevices"
      | none =>
        match v with
        | .arr xs =>
          match deserializeBlockDeviceList xs with
          | .ok ds => processTopFields rest (some ds)
          | .error e => .error e
        | _ => .error "invalid type: expected a sequence"
    else
      processTopFields rest acc

/-- Rust `parse_lsblk` from `src/lib.rs`, modelled at the `serde_json::Value`
level: deserialize a JSON document into `BlockDevices`. -/
def parse_lsblk (j : Json) : Except String BlockDevices :=
  match j with
  | .obj fields =>
    match processTopFields fields none with
    | .ok ds => .ok ⟨ds⟩
    | .error e => .error e
  | _ => .error "invalid type: expected an object"

/-! ## Serialization (the serde-derived `Serialize` impls) -/

/-- Serialization of one mountpoint entry. -/
def serializeOptString : Option String → Json
  | none => .null
  | some s => .str s

/-- The wire label of a `DeviceType` (`rename_all = "lowercase"`; the
catch-all variant `Other` serializes as `"other"`). -/
def deviceTypeLabel : DeviceType → String
  | .Disk => "disk"
  | .Part => "part"
  | .Loop => "loop"
  | .Raid1 => "raid1"
  | .Raid5 => "raid5"
  | .Raid6 => "raid6"
  | .Raid0 => "raid0"
  | .Raid10 => "raid10"
  | .Lvm => "lvm"
  | .Crypt => "crypt"
  | .Rom => "rom"
  | .Other => "other"

mutual
/-- The serde-derived serializer for `BlockDevice`: all eight fields in
declaration order, under their wire names (`maj:min`, `type`, plural
`mountpoints`); `size` as a non-negative integer number, `children` as `null`
or an array. -/
def serializeBlockDevice : BlockDevice → Json
  | .mk name maj_min rm size ro device_type mountpoints children =>
    .obj [("name", .str name), ("maj:min", .str maj_min), ("rm", .bool rm),
      ("size", .num (.posInt size)), ("ro", .bool ro),
      ("type", .str (deviceTypeLabel device_type)),
      ("mountpoints", .arr (mountpoints.map serializeOptString)),
      ("children", serializeChildren children)]

/-- Serialization of the optional children list. -/
def serializeChildren : Option (List BlockDevice) → Json
  | none => .null
  | some cs => .arr (serializeBlockDeviceList cs)

/-- Serialization of a list of devices. -/
def serializeBlockDeviceList : List BlockDevice → List Json
  | [] => []
  | c :: cs => serializeBlockDevice c :: serializeBlockDeviceList cs
end

/-- The serde-derived serializer for `BlockDevices`. -/
def serialize_lsblk (bs : BlockDevices) : Json :=
  .obj [("blockdevices", .arr (serializeBlockDeviceList bs.blockdevices))]

/-! ## Fixtures -/

/-- Multi-level fixture, innermost level: a RAID volume mounted at `/`. -/
def fixtureGrandchild : BlockDevice :=
  .mk "md2" "9:2" false 20518260736 false .Raid1 [some "/"] none

/-- Multi-level fixture, middle level: a partition whose only child is
`fixtureGrandchild`; not itself mounted. -/
def fixtureChild : BlockDevice :=
  .mk "sda2" "8:2" false 20518260736 false .Part [none] (some [fixtureGrandchild])

/-- Multi-level fixture, top level: a disk whose only child is
`fixtureChild`; `/` appears only on the grandchild. -/
def fixtureTop : BlockDevice :=
  .mk "sda" "8:0" false 480103981056 false .Disk [none] (some [fixtureChild])

/-! ## Helper lemmas -/

theorem sizeOf_lt_of_mem_childrenList {c d : BlockDevice}
    (h : c ∈ d.childrenList) : sizeOf c < sizeOf d := by
  obtain ⟨n, mm, rm, sz, ro, dt, mps, ch⟩ := d
  cases ch with
  | none => simp [BlockDevice.childrenList, BlockDevice.children] at h
  | some cs =>
    simp only [BlockDevice.childrenList, BlockDevice.children, Option.getD] at h
    have hlt := List.sizeOf_lt_of_mem h
    simp only [BlockDevice.mk.sizeOf_spec, Option.some.sizeOf_spec]
    omega

/-- Strong induction over a device tree: to prove `P d` one may assume `P`
for every direct child. -/
theorem BlockDevice.strongInd (P : BlockDevice → Prop)
    (h : ∀ d : BlockDevice, (∀ c ∈ d.childrenList, P c) → P d) :
    ∀ d, P d := by
  have aux : ∀ (n : Nat) (d : BlockDevice), sizeOf d ≤ n → P d := by
    intro n
    induction n with
    | zero =>
      intro d hd
      obtain ⟨_, _, _, _, _, _, _, _⟩ := d
      simp only [BlockDevice.mk.sizeOf_spec] at hd
      omega
    | succ n ih =>
      intro d hd
      refine h d (fun c hc => ih c ?_)
      have := sizeOf_lt_of_mem_childrenList hc
      omega
  exact fun d => aux (sizeOf d) d le_rfl

theorem is_system_list_iff (cs : List BlockDevice) :
    is_system_list cs = true ↔ ∃ c ∈ cs, c.is_system = true := by
  induction cs with
  | nil => simp [is_system_list]
  | cons c cs ih => simp [is_system_list, ih, Bool.or_eq_true]

theorem any_root_iff (mps : List (Option String)) :
    (mps.any fun m => m == some "/") = true ↔ some "/" ∈ mps := by
  simp [List.any_eq_true, beq_iff_eq]

theorem root_mem_active_mountpoints_iff (d : BlockDevice) :
    "/" ∈ d.active_mountpoints ↔ some "/" ∈ d.mountpoints := by
  simp [BlockDevice.active_mountpoints, List.mem_filterMap]

theorem is_system_eq_true_iff (d : BlockDevice) :
    d.is_system = true ↔ ∃ e, InSubtree e d ∧ "/" ∈ e.active_mountpoints := by
  induction d using BlockDevice.strongInd with
  | _ d ih =>
    obtain ⟨n, mm, rm, sz, ro, dt, mps, ch⟩ := d
    rw [BlockDevice.is_system]
    constructor
    · intro h
      rw [Bool.or_eq_true] at h
      rcases h with hown | hch
      · refine ⟨.mk n mm rm sz ro dt mps ch, InSubtree.refl _, ?_⟩
        rw [root_mem_active_mountpoints_iff]
        exact (any_root_iff mps).mp hown
      · cases ch with
        | none => simp [is_system_children] at hch
        | some cs =>
          rw [is_system_children, is_system_list_iff] at hch
          obtain ⟨c, hc, hcsys⟩ := hch
          have hmem : c ∈ (BlockDevice.mk n mm rm sz ro dt mps (some cs)).childrenList := by
            simpa [BlockDevice.childrenList, BlockDevice.children] using hc
          obtain ⟨e, hsub, hroot⟩ := (ih c hmem).mp hcsys
          exact ⟨e, InSubtree.step _ hmem hsub, hroot⟩
    · rintro ⟨e, hsub, hroot⟩
      cases hsub with
      | refl =>
        rw [Bool.or_eq_true]
        refine Or.inl ?_
        rw [any_root_iff]
        rw [root_mem_active_mountpoints_iff] at hroot
        exact hroot
      | step _ hc hsub =>
        rename_i c
        rw [Bool.or_eq_true]
        refine Or.inr ?_
        have hcsys : c.is_system = true := (ih c hc).mpr ⟨e, hsub, hroot⟩
        have hc' : c ∈ (Option.getD ch []) := by
          simpa [BlockDevice.childrenList, BlockDevice.children] using hc
        cases ch with
        | none => simp at hc'
        | some cs =>
          rw [is_system_children, is_system_list_iff]
          exact ⟨c, by simpa using hc', hcsys⟩

/-! ## Claim theorems -/

/-- C1: `is_system(device)` is true if and only if `"/"` appears among the
device's own non-null mountpoints or among the non-null mountpoints of some
descendant at any depth, and false otherwise; in particular it is true on a
fixture where `/` appears only on a grandchild. -/
theorem c1_is_system_iff_subtree_roots_slash :
    (∀ d : BlockDevice, d.is_system = true ↔
        ∃ e, InSubtree e d ∧ "/" ∈ e.active_mountpoints) ∧
    fixtureTop.is_system = true ∧
    "/" ∉ fixtureTop.active_mountpoints ∧
    "/" ∉ fixtureChild.active_mountpoints ∧
    "/" ∈ fixtureGrandchild.active_mountpoints := by
  refine ⟨is_system_eq_true_iff, by decide, by decide, by decide, by decide⟩

/-- C1 witness: the characterization instantiated at the concrete fixture. -/
theorem c1_witness :
    fixtureTop.is_system = true ↔
      ∃ e, InSubtree e fixtureTop ∧ "/" ∈ e.active_mountpoints :=
  c1_is_system_iff_subtree_roots_slash.1 fixtureTop

/-- C2: `system()` and `non_system()` partition the top-level device list by
`is_system`: together (as multisets) they are exactly the original top-level
list, each preserves the original relative order (is a sublist), and no
device appears in both. -/
theorem c2_system_non_system_partition (bs : BlockDevices) :
    List.Perm (bs.system ++ bs.non_system) bs.blockdevices ∧
    ((bs.system ++ bs.non_system : List BlockDevice) : Multiset BlockDevice) =
      (bs.blockdevices : Multiset BlockDevice) ∧
    List.Sublist bs.system bs.blockdevices ∧
    List.Sublist bs.non_system bs.blockdevices ∧
    ∀ d : BlockDevice, d ∈ bs.system → d ∉ bs.non_system := by
  have hperm : List.Perm (bs.system ++ bs.non_system) bs.blockdevices := by
    have := List.filter_append_perm (fun d : BlockDevice => d.is_system) bs.blockdevices
    simpa [BlockDevices.system, BlockDevices.non_system] using this
  refine ⟨hperm, Quot.sound hperm, List.filter_sublist _, List.filter_sublist _, ?_⟩
  intro d hsys hnon
  simp only [BlockDevices.system, List.mem_filter] at hsys
  simp only [BlockDevices.non_system, List.mem_filter] at hnon
  rcases hsys with ⟨-, h1⟩
  rcases hnon with ⟨-, h2⟩
  simp [h1] at h2

/-- C2 witness: the partition facts at a concrete two-device collection, with
the membership hypothesis of the disjointness conjunct discharged. -/
theorem c2_witness :
    fixtureTop ∉ (BlockDevices.mk [fixtureTop, fixtureGrandchild]).non_system :=
  (c2_system_non_system_partition ⟨[fixtureTop, fixtureGrandchild]⟩).2.2.2.2
    fixtureTop (List.mem_filter.mpr ⟨List.mem_cons_self _ _, rfl⟩)

theorem floor_decimalValue_mul (n k m : Nat) :
    ⌊decimalValue (n, k) * (m : ℚ)⌋₊ = n * m / 10 ^ k := by
  have h : decimalValue (n, k) * (m : ℚ) = ((n * m : ℕ) : ℚ) / ((10 ^ k : ℕ) : ℚ) := by
    simp only [decimalValue]
    push_cast
    ring
  rw [h, Nat.floor_div_nat, Nat.floor_natCast]

/-- C3 counterexample: on the valid size string `"0.9K"` the code yields
`⌊0.9 · 1024⌋ = 921`, while `round(0.9 · 1024) = round(921.6) = 922`, so the
result is not `round(numeric × multiplier)`. -/
theorem c3_counterexample :
    parse_size_string "0.9K" = some 921 ∧
    round (((9 : ℚ) / 10) * 1024) = 922 ∧
    parse_size_string "0.9K" ≠ some (round (((9 : ℚ) / 10) * 1024)).toNat := by
  refine ⟨by decide, by norm_num [round_eq], ?_⟩
  rw [show round (((9 : ℚ) / 10) * 1024) = 922 by norm_num [round_eq]]
  decide

/-- C3 amended: for every valid size string (non-empty after trimming,
parsable numeric portion, recognized unit suffix) the result is the product
numeric × multiplier truncated toward zero (floored) and saturated to the
`u64` range — not rounded to nearest; in particular `"894.3G"` normalizes to
`⌊894.3 × 1024³⌋ = 960247313203` bytes. -/
theorem c3_truncated_product :
    (∀ (s : String) (n k m : Nat),
        (trimChars s.toList).isEmpty = false →
        parseDecimal (numPortion s) = some (n, k) →
        unitMultiplier (unitPortion s) = some m →
        parse_size_string s =
          some (min ⌊decimalValue (n, k) * (m : ℚ)⌋₊ (2 ^ 64 - 1))) ∧
    parse_size_string "894.3G" = some 960247313203 ∧
    ⌊((8943 : ℚ) / 10) * 1024 ^ 3⌋₊ = 960247313203 := by
  refine ⟨?_, by decide, ?_⟩
  · intro s n k m hne hnum hmult
    rw [floor_decimalValue_mul]
    simp only [parse_size_string, numPortion, unitPortion] at hnum hmult ⊢
    rw [hne]
    simp only [Bool.false_eq_true, if_false, hnum, hmult]
  · have h : ((8943 : ℚ) / 10) * 1024 ^ 3 = decimalValue (8943, 1) * ((1073741824 : ℕ) : ℚ) := by
      simp [decimalValue]
      norm_num
    rw [h, floor_decimalValue_mul]
    norm_num

/-- C3 witness: the amended formula instantiated at `"894.3G"`, hypotheses
discharged by evaluation. -/
theorem c3_witness :
    parse_size_string "894.3G" =
      some (min ⌊decimalValue (8943, 1) * ((1073741824 : ℕ) : ℚ)⌋₊ (2 ^ 64 - 1)) :=
  c3_truncated_product.1 "894.3G" 8943 1 1073741824 (by decide) (by decide) (by decide)

/-- C7: unit-suffix matching is case-insensitive (two suffixes agreeing up to
upper-casing get the same multiplier), the multiplier table is as specified
on the canonical suffixes and on mixed-case variants, and `"3.5T"` and
`"3.5t"` normalize to the same byte count. -/
theorem c7_case_insensitive_units :
    (∀ u₁ u₂ : List Char, u₁.map Char.toUpper = u₂.map Char.toUpper →
        unitMultiplier u₁ = unitMultiplier u₂) ∧
    (unitMultiplier [] = some 1 ∧
     unitMultiplier ['B'] = some 1 ∧ unitMultiplier ['b'] = some 1 ∧
     unitMultiplier ['K'] = some 1024 ∧ unitMultiplier ['k'] = some 1024 ∧
     unitMultiplier ['K', 'B'] = some 1024 ∧ unitMultiplier ['K', 'i', 'B'] = some 1024 ∧
     unitMultiplier ['M'] = some (1024 ^ 2) ∧ unitMultiplier ['m', 'b'] = some (1024 ^ 2) ∧
     unitMultiplier ['M', 'i', 'B'] = some (1024 ^ 2) ∧
     unitMultiplier ['G'] = some (1024 ^ 3) ∧ unitMultiplier ['g', 'B'] = some (1024 ^ 3) ∧
     unitMultiplier ['G', 'i', 'b'] = some (1024 ^ 3) ∧
     unitMultiplier ['T'] = some (1024 ^ 4) ∧ unitMultiplier ['t', 'b'] = some (1024 ^ 4) ∧
     unitMultiplier ['T', 'I', 'B'] = some (1024 ^ 4) ∧
     unitMultiplier ['P'] = some (1024 ^ 5) ∧ unitMultiplier ['p', 'b'] = some (1024 ^ 5) ∧
     unitMultiplier ['P', 'i', 'B'] = some (1024 ^ 5)) ∧
    parse_size_string "3.5T" = parse_size_string "3.5t" ∧
    parse_size_string "3.5T" = some 3848290697216 := by
  refine ⟨?_, by decide, by decide, by decide⟩
  intro u₁ u₂ h
  simp only [unitMultiplier, h]

/-- C7 witness: case-insensitivity applied to the concrete pair `t` / `T`. -/
theorem c7_witness : unitMultiplier ['t'] = unitMultiplier ['T'] :=
  c7_case_insensitive_units.1 ['t'] ['T'] (by decide)

/-- C8: size-string normalization fails (yields `none`, which
`deserialize_size` turns into an error, never a default) exactly when the
string is empty after trimming, or the numeric portion does not parse as a
non-negative decimal, or the unit suffix is unrecognized. -/
theorem c8_size_error_cases :
    (∀ s : String,
        parse_size_string s = none ↔
          (trimChars s.toList).isEmpty = true ∨
          parseDecimal (numPortion s) = none ∨
          unitMultiplier (unitPortion s) = none) ∧
    (∀ s : String, parse_size_string s = none →
        deserialize_size (.str s) = .error ("invalid size string: " ++ s)) := by
  constructor
  · intro s
    simp only [parse_size_string, numPortion, unitPortion]
    rcases he : (trimChars s.toList).isEmpty with _ | _
    · simp only [Bool.false_eq_true, if_false]
      rcases hnum : parseDecimal ((trimChars s.toList).takeWhile isNumChar) with _ | ⟨n, k⟩
      · simp
      · rcases hmult : unitMultiplier (trimChars ((trimChars s.toList).dropWhile isNumChar)) with _ | m
        · simp
        · simp
    · simp
  · intro s h
    simp only [deserialize_size, h]

/-- C8 witness: the error characterization and the error propagation at the
concrete invalid size string `"12Q"`. -/
theorem c8_witness :
    deserialize_size (.str "12Q") = .error ("invalid size string: " ++ "12Q") :=
  c8_size_error_cases.2 "12Q" (by decide)

theorem deserializeOptString_serializeOptString (o : Option String) :
    deserializeOptString (serializeOptString o) = .ok o := by
  cases o <;> rfl

theorem deserialize_mountpoints_serialized (os : List (Option String)) :
    deserialize_mountpoints (.arr (os.map serializeOptString)) = .ok os := by
  have h : ∀ os : List (Option String),
      (os.map serializeOptString).mapM deserializeOptString = Except.ok os := by
    intro os
    induction os with
    | nil => rfl
    | cons o os ih =>
      rw [List.map_cons, List.mapM_cons]
      simp only [deserializeOptString_serializeOptString, ih]
      rfl
  exact h os

/-- C5: the mountpoint normalizer sends a single null to `[none]` and a
single string to `[some path]`; a single value and the equivalent one-element
list normalize identically; a well-formed list normalizes element-wise; in a
record with no mountpoint field at all the field defaults to `[]`; and `[]`
is distinct from `[none]`. -/
theorem c5_mountpoint_shapes :
    deserialize_mountpoints .null = .ok [none] ∧
    (∀ s : String, deserialize_mountpoints (.str s) = .ok [some s]) ∧
    (∀ j : Json, (j = .null ∨ ∃ s, j = .str s) →
        deserialize_mountpoints (.arr [j]) = deserialize_mountpoints j) ∧
    (∀ os : List (Option String),
        deserialize_mountpoints (.arr (os.map serializeOptString)) = .ok os) ∧
    (∀ (name maj_min : String) (rmv : Bool) (sz : Nat) (rov : Bool) (tl : String),
        deserializeBlockDevice (.obj [("name", .str name), ("maj:min", .str maj_min),
          ("rm", .bool rmv), ("size", .num (.posInt sz)), ("ro", .bool rov),
          ("type", .str tl)]) =
          .ok (.mk name maj_min rmv sz rov (deviceTypeOfLabel tl) [] none)) ∧
    ([] : List (Option String)) ≠ [none] := by
  refine ⟨rfl, fun s => rfl, ?_, deserialize_mountpoints_serialized, ?_, by decide⟩
  · rintro j (rfl | ⟨s, rfl⟩) <;> rfl
  · intro name maj_min rmv sz rov tl
    rfl

/-- C5 witness: single-vs-singleton-list agreement applied at `null`. -/
theorem c5_witness :
    deserialize_mountpoints (.arr [.null]) = deserialize_mountpoints .null :=
  c5_mountpoint_shapes.2.2.1 .null (Or.inl rfl)

/-- C6: device-type classification is total — every label string
deserializes successfully to exactly one kind; each of the eleven recognized
lowercase labels maps to its kind, and every label outside that closed set
maps to the catch-all `Other`. -/
theorem c6_device_type_total :
    (∀ s : String, deserializeDeviceType (.str s) = .ok (deviceTypeOfLabel s)) ∧
    (∀ s : String,
        s ∉ (["disk", "part", "loop", "raid1", "raid5", "raid6", "raid0",
          "raid10", "lvm", "crypt", "rom"] : List String) →
        deviceTypeOfLabel s = .Other) ∧
    deviceTypeOfLabel "disk" = .Disk ∧ deviceTypeOfLabel "part" = .Part ∧
    deviceTypeOfLabel "loop" = .Loop ∧ deviceTypeOfLabel "raid1" = .Raid1 ∧
    deviceTypeOfLabel "raid5" = .Raid5 ∧ deviceTypeOfLabel "raid6" = .Raid6 ∧
    deviceTypeOfLabel "raid0" = .Raid0 ∧ deviceTypeOfLabel "raid10" = .Raid10 ∧
    deviceTypeOfLabel "lvm" = .Lvm ∧ deviceTypeOfLabel "crypt" = .Crypt ∧
    deviceTypeOfLabel "rom" = .Rom := by
  refine ⟨fun s => rfl, ?_, rfl, rfl, rfl, rfl, rfl, rfl, rfl, rfl, rfl, rfl, rfl⟩
  intro s h
  simp only [List.mem_cons, List.not_mem_nil, or_false, not_or] at h
  obtain ⟨h1, h2, h3, h4, h5, h6, h7, h8, h9, h10, h11⟩ := h
  simp [deviceTypeOfLabel, h1, h2, h3, h4, h5, h6, h7, h8, h9, h10, h11]

/-- C6 witness: an unknown label (`"zram"`) classified via the theorem. -/
theorem c6_witness :
    deviceTypeOfLabel "zram" = .Other ∧
    deserializeDeviceType (.str "zram") = .ok DeviceType.Other := by
  have h := c6_device_type_total.2.1 "zram" (by decide)
  exact ⟨h, by rw [c6_device_type_total.1 "zram", h]⟩

/-- C10: a negative JSON number in the size field is not an error — `as_u64`
declines, the value falls through `as_f64` and the `as u64` cast, and every
negative numeric size silently normalizes to `Ok(0)`; concretely so for `-5`
and `-5.5`. -/
theorem c10_negative_size_silently_zero :
    (∀ n : JsonNumber, n.value < 0 → deserialize_size (.num n) = .ok 0) ∧
    deserialize_size (.num (.negInt (-5))) = .ok 0 ∧
    deserialize_size (.num (.float (-11 / 2))) = .ok 0 := by
  have hmain : ∀ n : JsonNumber, n.value < 0 → deserialize_size (.num n) = .ok 0 := by
    intro n hneg
    cases n with
    | posInt k =>
      simp only [JsonNumber.value] at hneg
      exact absurd hneg (not_lt.mpr (by positivity))
    | negInt i =>
      simp only [JsonNumber.value] at hneg
      simp [deserialize_size, JsonNumber.as_u64, JsonNumber.as_f64, f64_as_u64, hneg]
    | float q =>
      simp only [JsonNumber.value] at hneg
      simp [deserialize_size, JsonNumber.as_u64, JsonNumber.as_f64, f64_as_u64, hneg]
  refine ⟨hmain, hmain _ (by norm_num [JsonNumber.value]),
    hmain _ (by norm_num [JsonNumber.value])⟩

/-- C10 witness: the general statement applied at the concrete number `-7`. -/
theorem c10_witness : deserialize_size (.num (.negInt (-7))) = .ok 0 :=
  c10_negative_size_silently_zero.1 (.negInt (-7)) (by norm_num [JsonNumber.value])

theorem processSimpleField_mount_slot_some {k : String} {v : Json} {s : Slots}
    (hk : k = "mountpoints" ∨ k = "mountpoint") (hs : s.mountpoints.isSome = true) :
    processSimpleField k v s = .error "duplicate field mountpoints" := by
  obtain ⟨x, hx⟩ := Option.isSome_iff_exists.mp hs
  rcases hk with rfl | rfl <;> simp [processSimpleField, hx]

theorem processSimpleField_mount_slot_none {k : String} {v : Json} {s : Slots}
    (hk : k = "mountpoints" ∨ k = "mountpoint") (hs : s.mountpoints = none) :
    processSimpleField k v s =
      match deserialize_mountpoints v with
      | .ok x => .ok { s with mountpoints := some x }
      | .error e => .error e := by
  rcases hk with rfl | rfl <;> simp [processSimpleField, hs]

theorem processSimpleField_preserves_mountpoints {k : String} {v : Json} {s s' : Slots}
    (hk1 : k ≠ "mountpoints") (hk2 : k ≠ "mountpoint")
    (h : processSimpleField k v s = .ok s') : s'.mountpoints = s.mountpoints := by
  simp only [processSimpleField, hk1, hk2, or_self, if_false] at h
  split_ifs at h <;>
    first
      | (injection h with h; subst h; rfl)
      | (split at h <;>
          first
            | (injection h)
            | (split at h <;>
                first
                  | (injection h with h; subst h; rfl)
                  | (injection h)))

theorem processFields_mount_dup_of_some :
    ∀ (fields : List (String × Json)) (s : Slots),
      s.mountpoints.isSome = true →
      ("mountpoints" ∈ fields.map Prod.fst ∨ "mountpoint" ∈ fields.map Prod.fst) →
      ∃ e, processFields fields s = .error e := by
  intro fields
  induction fields with
  | nil =>
    intro s _ hmem
    simp at hmem
  | cons kv rest ih =>
    obtain ⟨k, v⟩ := kv
    intro s hs hmem
    simp only [List.map_cons, List.mem_cons] at hmem
    by_cases hk : k = "children"
    · subst hk
      rcases hmem with (hmem | hmem) | (hmem | hmem)
      · exact absurd hmem (by decide)
      on_goal 2 => exact absurd hmem (by decide)
      all_goals {
        simp only [processFields, if_pos rfl]
        cases hc : s.children with
        | some x => exact ⟨_, rfl⟩
        | none =>
          cases hdc : deserializeChildren v with
          | error e => exact ⟨e, rfl⟩
          | ok x =>
            first
              | exact ih { s with children := some x } hs (Or.inl hmem)
              | exact ih { s with children := some x } hs (Or.inr hmem) }
    · simp only [processFields, if_neg hk]
      by_cases hmk : k = "mountpoints" ∨ k = "mountpoint"
      · rw [processSimpleField_mount_slot_some hmk hs]
        exact ⟨_, rfl⟩
      · cases hres : processSimpleField k v s with
        | error e => exact ⟨e, rfl⟩
        | ok s' =>
          push_neg at hmk
          have hpres := processSimpleField_preserves_mountpoints hmk.1 hmk.2 hres
          refine ih s' (by rw [hpres]; exact hs) ?_
          rcases hmem with (hmem | hmem) | (hmem | hmem)
          · exact absurd hmem.symm hmk.1
          · exact Or.inl hmem
          · exact absurd hmem.symm hmk.2
          · exact Or.inr hmem

theorem processFields_both_mount_keys_error :
    ∀ (fields : List (String × Json)) (s : Slots),
      "mountpoint" ∈ fields.map Prod.fst → "mountpoints" ∈ fields.map Prod.fst →
      ∃ e, processFields fields s = .error e := by
  intro fields
  induction fields with
  | nil =>
    intro s h _
    simp at h
  | cons kv rest ih =>
    obtain ⟨k, v⟩ := kv
    intro s h1 h2
    simp only [List.map_cons, List.mem_cons] at h1 h2
    by_cases hk : k = "children"
    · subst hk
      rcases h1 with h1 | h1
      · exact absurd h1 (by decide)
      rcases h2 with h2 | h2
      · exact absurd h2 (by decide)
      simp only [processFields, if_pos rfl]
      cases hc : s.children with
      | some x => exact ⟨_, rfl⟩
      | none =>
        cases hdc : deserializeChildren v with
        | error e => exact ⟨e, rfl⟩
        | ok x => exact ih { s with children := some x } h1 h2
    · simp only [processFields, if_neg hk]
      by_cases hmk : k = "mountpoints" ∨ k = "mountpoint"
      · cases hs : s.mountpoints with
        | some x =>
          rw [processSimpleField_mount_slot_some hmk (by simp [hs])]
          exact ⟨_, rfl⟩
        | none =>
          rw [processSimpleField_mount_slot_none hmk hs]
          cases hdm : deserialize_mountpoints v with
          | error e => exact ⟨e, rfl⟩
          | ok x =>
            refine processFields_mount_dup_of_some rest
              { s with mountpoints := some x } (by simp) ?_
            rcases hmk with rfl | rfl
            · rcases h1 with h1 | h1
              · exact absurd h1 (by decide)
              · exact Or.inr h1
            · rcases h2 with h2 | h2
              · exact absurd h2 (by decide)
              · exact Or.inl h2
      · cases hres : processSimpleField k v s with
        | error e => exact ⟨e, rfl⟩
        | ok s' =>
          push_neg at hmk
          refine ih s' ?_ ?_
          · rcases h1 with h1 | h1
            · exact absurd h1.symm hmk.2
            · exact h1
          · rcases h2 with h2 | h2
            · exact absurd h2.symm hmk.1
            · exact h2

/-- C4 counterexample: a record carrying both the singular `"mountpoint"`
field and the plural `"mountpoints"` field does not parse — the serde alias
routes both names to one field slot, so the second occurrence is a
duplicate-field error; the plural form does not take precedence. -/
theorem c4_counterexample :
    deserializeBlockDevice (.obj [("name", .str "sda"), ("maj:min", .str "8:0"),
      ("rm", .bool false), ("size", .num (.posInt 100)), ("ro", .bool false),
      ("type", .str "disk"), ("mountpoint", .null),
      ("mountpoints", .arr [.str "/data"])]) =
      .error "duplicate field mountpoints" := rfl

/-- C4 amended: whenever both the singular and the plural mountpoint wire
names appear among a record's keys, parsing the record fails with an error
(in whichever order the two names appear, and wherever they sit among the
other keys). -/
theorem c4_both_mount_keys_error (fields : List (String × Json))
    (h1 : "mountpoint" ∈ fields.map Prod.fst)
    (h2 : "mountpoints" ∈ fields.map Prod.fst) :
    ∃ e, deserializeBlockDevice (.obj fields) = .error e := by
  obtain ⟨e, he⟩ := processFields_both_mount_keys_error fields initSlots h1 h2
  exact ⟨e, by simp [deserializeBlockDevice, he]⟩

/-- C4 witness: the amended statement at a concrete record listing the plural
name first, hypotheses discharged by evaluation. -/
theorem c4_witness :
    ∃ e, deserializeBlockDevice (.obj [("name", .str "sdb"),
      ("mountpoints", .arr [.null]), ("mountpoint", .str "/boot")]) = .error e :=
  c4_both_mount_keys_error _ (by decide) (by decide)

theorem deviceTypeOfLabel_deviceTypeLabel (dt : DeviceType) :
    deviceTypeOfLabel (deviceTypeLabel dt) = dt := by
  cases dt <;> rfl

theorem deserializeBlockDeviceList_serialized_of_mem :
    ∀ cs : List BlockDevice,
      (∀ c ∈ cs, deserializeBlockDevice (serializeBlockDevice c) = .ok c) →
      deserializeBlockDeviceList (serializeBlockDeviceList cs) = .ok cs := by
  intro cs
  induction cs with
  | nil => intro _; rfl
  | cons c cs ih =>
    intro h
    simp only [serializeBlockDeviceList, deserializeBlockDeviceList,
      h c (List.mem_cons_self _ _), ih (fun c hc => h c (List.mem_cons_of_mem _ hc))]

theorem processFields_standard (n mm : String) (rm : Bool) (szJson : Json) (sz : Nat)
    (ro : Bool) (tl : String) (mpsJson : Json) (mps : List (Option String))
    (chJson : Json) (ch : Option (List BlockDevice))
    (hsz : deserialize_size szJson = .ok sz)
    (hmp : deserialize_mountpoints mpsJson = .ok mps)
    (hch : deserializeChildren chJson = .ok ch) :
    deserializeBlockDevice (.obj [("name", .str n), ("maj:min", .str mm),
      ("rm", .bool rm), ("size", szJson), ("ro", .bool ro), ("type", .str tl),
      ("mountpoints", mpsJson), ("children", chJson)]) =
      .ok (.mk n mm rm sz ro (deviceTypeOfLabel tl) mps ch) := by
  simp [deserializeBlockDevice, processFields, processSimpleField, finishSlots,
    initSlots, deserializeString, deserializeBool, deserializeDeviceType, hsz, hmp, hch]

theorem deserialize_serialize_device (d : BlockDevice) :
    deserializeBlockDevice (serializeBlockDevice d) = .ok d := by
  induction d using BlockDevice.strongInd with
  | _ d ih =>
    obtain ⟨n, mm, rm, sz, ro, dt, mps, ch⟩ := d
    have hch : deserializeChildren (serializeChildren ch) = .ok ch := by
      cases ch with
      | none => rfl
      | some cs =>
        have hlist : deserializeBlockDeviceList (serializeBlockDeviceList cs) = .ok cs :=
          deserializeBlockDeviceList_serialized_of_mem cs (fun c hc =>
            ih c (by simpa [BlockDevice.childrenList, BlockDevice.children] using hc))
        simp only [serializeChildren, deserializeChildren, hlist]
    rw [serializeBlockDevice, processFields_standard n mm rm (.num (.posInt sz)) sz ro
      (deviceTypeLabel dt) (.arr (mps.map serializeOptString)) mps
      (serializeChildren ch) ch rfl (deserialize_mountpoints_serialized mps) hch,
      deviceTypeOfLabel_deviceTypeLabel]

/-- C9: for every document that parses successfully, parsing then serializing
then parsing again yields field-for-field equal structures; indeed every
in-memory device tree survives serialize-then-parse unchanged, so in
particular the three-way children state (absent / empty / non-empty) survives
the round trip. -/
theorem c9_parse_serialize_roundtrip :
    (∀ (j : Json) (ds : BlockDevices),
        parse_lsblk j = .ok ds → parse_lsblk (serialize_lsblk ds) = .ok ds) ∧
    (∀ d : BlockDevice, deserializeBlockDevice (serializeBlockDevice d) = .ok d) := by
  refine ⟨?_, deserialize_serialize_device⟩
  rintro - ds -
  have hlist : deserializeBlockDeviceList (serializeBlockDeviceList ds.blockdevices) =
      .ok ds.blockdevices :=
    deserializeBlockDeviceList_serialized_of_mem ds.blockdevices
      (fun c _ => deserialize_serialize_device c)
  obtain ⟨l⟩ := ds
  simp [serialize_lsblk, parse_lsblk, processTopFields, hlist]

/-- C9 witness: the round trip applied to a parsed two-device document (one
device with an empty children list, one with the field absent). -/
theorem c9_witness :
    parse_lsblk (serialize_lsblk
      ⟨[.mk "sda" "8:0" false 100 false .Disk [none] (some []),
        .mk "sdb" "8:16" false 100 false .Disk [] none]⟩) =
    .ok ⟨[.mk "sda" "8:0" false 100 false .Disk [none] (some []),
        .mk "sdb" "8:16" false 100 false .Disk [] none]⟩ :=
  c9_parse_serialize_roundtrip.1
    (.obj [("blockdevices", .arr [
      .obj [("name", .str "sda"), ("maj:min", .str "8:0"), ("rm", .bool false),
        ("size", .num (.posInt 100)), ("ro", .bool false), ("type", .str "disk"),
        ("mountpoints", .arr [.null]), ("children", .arr [])],
      .obj [("name", .str "sdb"), ("maj:min", .str "8:16"), ("rm", .bool false),
        ("size", .num (.posInt 100)), ("ro", .bool false), ("type", .str "disk"),
        ("mountpoints", .arr [])]])]) _ rfl

end Blockdev
